import Mathlib

/-
Verification of the uno-rs core (`uno-core/src/lib.rs`, `uno-core/src/cards.rs`).

The Rust code is shallowly embedded: `Vec<UnoCard>` becomes `List UnoCard`
with the LAST element playing the role of the Vec's back (the "top" of a
deck), `Result` becomes `Except`, and Rust panics (index out of bounds,
usize underflow, `expect`, `unreachable!`) are modelled as explicit failure
outcomes (`Option` / dedicated constructors).  Shuffling is external
randomness injected by `rand`; deck construction is modelled as the
pre-shuffle card list, and all properties proved about it are invariant
under permutation (multiset counts, lengths).
-/

set_option maxHeartbeats 1000000

/-- Mirrors `UnoColor` in `cards.rs`. -/
inductive UnoColor
  | Red
  | Blue
  | Green
  | Yellow
deriving DecidableEq, Repr

/-- Mirrors `UnoValue` in `cards.rs`. -/
inductive UnoValue
  | Zero
  | One
  | Two
  | Three
  | Four
  | Five
  | Six
  | Seven
  | Eight
  | Nine
  | Skip
  | Reverse
  | Draw2
deriving DecidableEq, Repr

/-- Mirrors `UnoWildCard` in `cards.rs`. -/
inductive UnoWildCard
  | Played (draw_4 : Bool) (color : UnoColor)
  | Unplayed (draw_4 : Bool)
deriving DecidableEq, Repr

/-- Mirrors `UnoCard` in `cards.rs`. -/
inductive UnoCard
  | Card (color : UnoColor) (value : UnoValue)
  | Wild (wild : UnoWildCard)
deriving DecidableEq, Repr

/-- Mirrors `UnoCardMatchError` in `cards.rs`. -/
inductive UnoCardMatchError
  | NoMatch
  | WildUnplayed
deriving DecidableEq, Repr

/-- Mirrors `UnoError` in `lib.rs`. -/
inductive UnoError
  | TooManyPlayers (n : Nat)
  | NoCardsLeft
  | InvalidPlayerNumber
  | Cheating
  | CardNotPlayable (e : UnoCardMatchError)
deriving DecidableEq, Repr

/-- Mirrors `UnoCard::playable_on` in `cards.rs`.  Rust's derived
`PartialEq` on these enums is structural equality, so `==` becomes `=`. -/
def UnoCard.playable_on (self other_card : UnoCard) : Except UnoCardMatchError Unit :=
  match self with
  | .Card self_color self_value =>
    match other_card with
    | .Card other_color other_value =>
      if self_color = other_color ∨ self_value = other_value then .ok ()
      else .error .NoMatch
    | .Wild other_wild =>
      match other_wild with
      | .Played _ other_color =>
        if self_color = other_color then .ok () else .error .NoMatch
      | .Unplayed _ => .error .WildUnplayed
  | .Wild self_wild =>
    match self_wild with
    | .Played _ _ => .ok ()
    | .Unplayed _ => .error .WildUnplayed

/-- The `strum::EnumIter` order for `UnoColor` (declaration order). -/
def UnoColor.iterAll : List UnoColor := [.Red, .Blue, .Green, .Yellow]

/-- The `strum::EnumIter` order for `UnoValue` (declaration order). -/
def UnoValue.iterAll : List UnoValue :=
  [.Zero, .One, .Two, .Three, .Four, .Five, .Six, .Seven, .Eight, .Nine,
   .Skip, .Reverse, .Draw2]

/-- Mirrors `UnoCard::color_permutations` in `cards.rs`. -/
def UnoCard.color_permutations : List UnoCard :=
  UnoColor.iterAll.flatMap fun color =>
    UnoValue.iterAll.map fun value => UnoCard.Card color value

/-- Mirrors the Rust macro test `matches!(card, UnoCard::Card { value: UnoValue::Zero, .. })`
used by the filter in `UnoDeck::new`. -/
def isZeroCard : UnoCard → Bool
  | .Card _ .Zero => true
  | _ => false

/-- Mirrors `FULL_DECK_SIZE` in `lib.rs`. -/
def FULL_DECK_SIZE : Nat := 108

/-- Mirrors `PLAYER_STARTING_HAND_SIZE` in `lib.rs` (note: the source sets
it to 108, not 7). -/
def PLAYER_STARTING_HAND_SIZE : Nat := 108

/-- The card list built by `UnoDeck::new` in `lib.rs`, before the final
shuffle (the shuffle is a uniform permutation from `rand`, external to the
embedded logic; every property proved about this list is permutation
invariant). -/
def UnoDeck.newCards : List UnoCard :=
  UnoCard.color_permutations ++
    UnoCard.color_permutations.filter (fun card => !(isZeroCard card)) ++
    (List.range 8).map (fun i => UnoCard.Wild (.Unplayed (decide (i < 4))))

/-- Mirrors `TurnDirection` in `lib.rs`. -/
inductive TurnDirection
  | Clockwise
  | CounterClockwise
deriving DecidableEq, Repr

/-- Mirrors `UnoGameState` in `lib.rs`; each `UnoDeck` newtype is inlined
as a `List UnoCard` (last element = top). -/
structure UnoGameState where
  main_deck : List UnoCard
  discard_deck : List UnoCard
  player_hands : List (List UnoCard)
  turn_direction : TurnDirection
  current_turn : Nat
deriving DecidableEq, Repr

/-- Mirrors `UnoDeck::draw_card` (`Vec::pop`): removes and returns the last
element. -/
def drawCard (deck : List UnoCard) : Option (UnoCard × List UnoCard) :=
  match deck.getLast? with
  | none => none
  | some card => some (card, deck.dropLast)

/-- In-place update of the element at index `i` (Rust's `hands[i].push(..)` /
`hands[i].remove(..)` patterns); out-of-range indices leave the list
unchanged, a case that never arises on the reachable paths below. -/
def modifyAt {α : Type} (l : List α) (i : Nat) (f : α → α) : List α :=
  match l, i with
  | [], _ => []
  | a :: rest, 0 => f a :: rest
  | a :: rest, j + 1 => a :: modifyAt rest j f

/-- The loop body of `UnoDeck::deal`: `remaining` counts the iterations still
to run of `for i in 0..(PLAYER_STARTING_HAND_SIZE * players)`, with `i` the
current loop index.  A failed draw is `NoCardsLeft`, as in the source. -/
def dealGo (deck : List UnoCard) (hands : List (List UnoCard)) (players i : Nat) :
    Nat → Except UnoError (List UnoCard × List (List UnoCard))
  | 0 => .ok (deck, hands)
  | remaining + 1 =>
    match drawCard deck with
    | none => .error .NoCardsLeft
    | some (card, deck') =>
      dealGo deck' (modifyAt hands (i % players) (fun h => h ++ [card])) players
        (i + 1) remaining

/-- Mirrors `UnoDeck::deal` in `lib.rs`: deals
`PLAYER_STARTING_HAND_SIZE * players` cards round-robin into `players`
initially-empty hands, returning the remaining deck and the hands. -/
def deal (deck : List UnoCard) (players : Nat) :
    Except UnoError (List UnoCard × List (List UnoCard)) :=
  dealGo deck (List.replicate players []) players 0
    (PLAYER_STARTING_HAND_SIZE * players)

/-- Mirrors `UnoGameState::new` in `lib.rs`, parametrized by the freshly
constructed (shuffled) deck: deal to the players, then draw one card to seed
the discard pile. -/
def UnoGameState.newFrom (deck : List UnoCard) (players : Nat) :
    Except UnoError UnoGameState :=
  match deal deck players with
  | .error e => .error e
  | .ok (main', player_hands) =>
    match drawCard main' with
    | none => .error .NoCardsLeft
    | some (card, main'') =>
      .ok { main_deck := main'', discard_deck := [card],
            player_hands := player_hands,
            turn_direction := .Clockwise, current_turn := 0 }

/-- Mirrors `UnoGameState::draw_n_cards` in `lib.rs`.  `none` models the two
`expect` panics ("No cards left -- everyone has huge hands?" when main deck
and discard pile are simultaneously empty, and "There should be cards now."
when the recycled pile is empty).  On the recycling path the source pops the
discard top, appends the remaining discard cards onto the (empty) main deck
without reshuffling, and keeps the top as the sole discard card. -/
def drawNCards (s : UnoGameState) : Nat → Option (UnoGameState × List UnoCard)
  | 0 => some (s, [])
  | n + 1 =>
    match drawCard s.main_deck with
    | some (card, main') =>
      match drawNCards { s with main_deck := main' } n with
      | none => none
      | some (s', cards) => some (s', card :: cards)
    | none =>
      match drawCard s.discard_deck with
      | none => none
      | some (top_card, rest) =>
        match drawCard (s.main_deck ++ rest) with
        | none => none
        | some (card, main') =>
          match drawNCards { s with main_deck := main', discard_deck := [top_card] } n with
          | none => none
          | some (s', cards) => some (s', card :: cards)

/-- Outcome of `UnoGameState::try_next`.  `panicAccess` models the panics of
the two validation-phase container accesses (`player_hands.len() - 1` /
`player_hands[whos_turn]` on an empty hand list, and indexing the top of an
empty discard pile); `panicDraw` models a panic propagated out of
`draw_n_cards`; `panicUnreachable` models the `unreachable!` arm; `res s e`
models a normal return with final state `s` — `e = none` for `Ok`, and
`e = some err` for `Err(err)` (the state is threaded so that the no-mutation
guarantee is a provable property, not a definition). -/
inductive TryNextOut
  | panicAccess
  | panicDraw
  | panicUnreachable
  | res (s : UnoGameState) (e : Option UnoError)
deriving DecidableEq, Repr

/-- The shared shape of the `Draw2` and wild-draw-4 arms of `try_next`
(duplicated verbatim in the source, with `n = 2` and `n = 4`): advance
`current_turn` one step, make that player draw `n` cards, append them to
that player's hand, then advance one more step. -/
def applyDraw (s : UnoGameState) (n : Nat) : TryNextOut :=
  match drawNCards { s with current_turn := (s.current_turn + 1) % s.player_hands.length } n with
  | none => .panicDraw
  | some (s', drawn) =>
    let s'' : UnoGameState :=
      { s' with player_hands := modifyAt s'.player_hands s'.current_turn (fun h => h ++ drawn) }
    .res { s'' with current_turn := (s''.current_turn + 1) % s''.player_hands.length } none

/-- The `match card { .. }` effect block at the end of `try_next`, applied to
the state after the played card has moved from the hand to the discard pile.
The turn arithmetic is exactly the source's (`+2 mod len` for Skip
regardless of direction, the two Reverse arms, no advance on the `_ => {}`
arm or on a plain played wild). -/
def applyEffect (s : UnoGameState) (card : UnoCard) : TryNextOut :=
  match card with
  | .Card _ value =>
    match value with
    | .Skip =>
      .res { s with current_turn := (s.current_turn + 2) % s.player_hands.length } none
    | .Reverse =>
      match s.turn_direction with
      | .Clockwise =>
        .res { s with
          current_turn := if s.current_turn = 0 then s.player_hands.length - 1
            else s.current_turn - 1,
          turn_direction := .CounterClockwise } none
      | .CounterClockwise =>
        .res { s with
          current_turn := (s.current_turn + 1) % s.player_hands.length,
          turn_direction := .Clockwise } none
    | .Draw2 => applyDraw s 2
    | _ => .res s none
  | .Wild wild =>
    match wild with
    | .Played draw_4 _ => if draw_4 then applyDraw s 4 else .res s none
    | .Unplayed _ => .panicUnreachable

/-- Mirrors `UnoGameState::try_next` in `lib.rs`.  The guard
`whos_turn > player_hands.len() - 1` is modelled with the empty-hand-list
case split off as a panic (in Rust it panics in both debug — underflow —
and release — the subsequent out-of-bounds index).  The card removed by
`remove(card_idx)` equals `which_card` (derived `PartialEq` is structural
equality and `position` found an equal element), so the pushed/matched card
is written as `which_card`. -/
def tryNext (s : UnoGameState) (whos_turn : Nat) (which_card : UnoCard) : TryNextOut :=
  if s.player_hands.length = 0 then .panicAccess
  else if s.player_hands.length - 1 < whos_turn then .res s (some .InvalidPlayerNumber)
  else
    match (s.player_hands.getD whos_turn []).findIdx? (fun card => decide (card = which_card)) with
    | none => .res s (some .Cheating)
    | some card_idx =>
      match s.discard_deck.getLast? with
      | none => .panicAccess
      | some top_card =>
        match which_card.playable_on top_card with
        | .error e => .res s (some (.CardNotPlayable e))
        | .ok _ =>
          applyEffect
            { s with
              player_hands := modifyAt s.player_hands whos_turn (fun h => h.eraseIdx card_idx),
              discard_deck := s.discard_deck ++ [which_card] }
            which_card

/-- Total number of cards held by a list of hands. -/
def handsTotal (hands : List (List UnoCard)) : Nat := (hands.map List.length).sum

/-- Total number of cards in play: main deck + discard pile + all hands. -/
def totalCards (s : UnoGameState) : Nat :=
  s.main_deck.length + s.discard_deck.length + handsTotal s.player_hands

/-- Written from the amended wording of the matching-rule claim: a Colored
candidate on a Colored top succeeds iff color or value matches, else
`NoMatch`; a Colored candidate on a Played Wild succeeds iff its color is
the Wild's chosen color, else `NoMatch`; a Colored candidate on an Unplayed
Wild top, and any Unplayed Wild candidate, fails with `WildUnplayed`; a
Played Wild candidate always succeeds, even on an Unplayed Wild top. -/
def playableOnSpec (candidate top : UnoCard) : Except UnoCardMatchError Unit :=
  match candidate with
  | .Wild (.Played _ _) => .ok ()
  | .Wild (.Unplayed _) => .error .WildUnplayed
  | .Card color value =>
    match top with
    | .Card top_color top_value =>
      if color = top_color ∨ value = top_value then .ok () else .error .NoMatch
    | .Wild (.Played _ wild_color) =>
      if color = wild_color then .ok () else .error .NoMatch
    | .Wild (.Unplayed _) => .error .WildUnplayed

/-- C5 (counterexample): the claim asserts that ANY candidate checked
against an Unplayed Wild top fails with `WildUnplayed`, but a Played Wild
candidate succeeds on an Unplayed Wild top — `playable_on` never looks at
the top card when the candidate is a Played Wild. -/
theorem playable_on_played_wild_on_unplayed_top_succeeds :
    UnoCard.playable_on (.Wild (.Played false .Red)) (.Wild (.Unplayed false)) = .ok () := by
  rfl

/-- C5 (amended): `playable_on` agrees everywhere with the matching rule as
amended — the `WildUnplayed` failure on an Unplayed Wild top applies to
Colored candidates (and Unplayed Wild candidates), while a Played Wild
candidate always succeeds regardless of the top card. -/
theorem playable_on_eq_spec :
    ∀ candidate top : UnoCard, UnoCard.playable_on candidate top = playableOnSpec candidate top := by
  intro candidate top
  cases candidate with
  | Card color value =>
    cases top with
    | Card tc tv => rfl
    | Wild w => cases w <;> rfl
  | Wild w => cases w <;> rfl

/-- C8: the deck built by `UnoDeck::new` (before the external shuffle, which
only permutes) is exactly the canonical 108-card multiset: per color one
Zero, two of every other value (One–Nine, Skip, Reverse, Draw2), four plain
Unplayed Wilds, four Unplayed Wild-Draw-4s, and no Played wilds. -/
theorem uno_deck_new_composition :
    UnoDeck.newCards.length = 108 ∧
    (∀ (color : UnoColor) (value : UnoValue),
      UnoDeck.newCards.count (.Card color value) = if value = .Zero then 1 else 2) ∧
    UnoDeck.newCards.count (.Wild (.Unplayed false)) = 4 ∧
    UnoDeck.newCards.count (.Wild (.Unplayed true)) = 4 ∧
    (∀ (draw_4 : Bool) (color : UnoColor),
      UnoDeck.newCards.count (.Wild (.Played draw_4 color)) = 0) := by
  refine ⟨by decide, ?_, by decide, by decide, ?_⟩
  · intro color value
    cases color <;> cases value <;> decide
  · intro draw_4 color
    cases draw_4 <;> cases color <;> decide

/-- A 2-player state used to evaluate `try_next` on a numeric play and on a
plain played-wild play. -/
def stateNumericPlay : UnoGameState :=
  { main_deck := [], discard_deck := [.Card .Red .Two],
    player_hands := [[.Card .Red .Five], [.Card .Blue .One]],
    turn_direction := .Clockwise, current_turn := 0 }

/-- A 2-player state whose current player holds a plain (non-draw-4) wild. -/
def stateWildPlay : UnoGameState :=
  { main_deck := [], discard_deck := [.Card .Red .Two],
    player_hands := [[.Wild (.Played false .Red)], [.Card .Blue .One]],
    turn_direction := .Clockwise, current_turn := 0 }

/-- C2: the code does not advance the turn on the baseline path.  In a
2-player Clockwise game with `current_turn = 0`, an accepted play of a
numeric card (Red 5 on Red 2) and an accepted play of a plain Played Wild
both leave `current_turn` at 0, where the spec requires it to advance one
step to 1 — the `_ => {}` arm of `try_next` (and the `draw_4 = false` wild
arm) performs no turn update. -/
theorem numeric_and_plain_wild_plays_do_not_advance_turn :
    tryNext stateNumericPlay 0 (.Card .Red .Five) =
      .res { main_deck := [], discard_deck := [.Card .Red .Two, .Card .Red .Five],
             player_hands := [[], [.Card .Blue .One]],
             turn_direction := .Clockwise, current_turn := 0 } none ∧
    tryNext stateWildPlay 0 (.Wild (.Played false .Red)) =
      .res { main_deck := [], discard_deck := [.Card .Red .Two, .Wild (.Played false .Red)],
             player_hands := [[], [.Card .Blue .One]],
             turn_direction := .Clockwise, current_turn := 0 } none := by
  exact ⟨by decide, by decide⟩

/-- A 3-player CounterClockwise state whose current player holds a Skip. -/
def stateSkipPlay : UnoGameState :=
  { main_deck := [], discard_deck := [.Card .Red .Five],
    player_hands := [[.Card .Red .Skip], [.Card .Blue .One], [.Card .Green .One]],
    turn_direction := .CounterClockwise, current_turn := 0 }

/-- C6: `try_next` computes `(current_turn + 2) % players` for a Skip
regardless of `turn_direction`.  In a 3-player CounterClockwise game with
`current_turn = 0`, an accepted Skip yields `current_turn = 2`, whereas two
steps in the CounterClockwise direction would yield 1 (in the 4-player
Clockwise instance the claim names, the two coincide at 2). -/
theorem skip_play_ignores_turn_direction :
    tryNext stateSkipPlay 0 (.Card .Red .Skip) =
      .res { main_deck := [],
             discard_deck := [.Card .Red .Five, .Card .Red .Skip],
             player_hands := [[], [.Card .Blue .One], [.Card .Green .One]],
             turn_direction := .CounterClockwise, current_turn := 2 } none := by
  decide

/-- Popping the back of a non-empty list returns its last element and the
rest. -/
theorem drawCard_concat (l : List UnoCard) (c : UnoCard) :
    drawCard (l ++ [c]) = some (c, l) := by
  simp [drawCard, List.getLast?_concat, List.dropLast_concat]

/-- A successful `drawCard` decomposes the deck as rest-plus-top. -/
theorem drawCard_eq_some {deck d' : List UnoCard} {c : UnoCard}
    (h : drawCard deck = some (c, d')) : deck = d' ++ [c] := by
  rcases deck.eq_nil_or_concat with rfl | ⟨l, a, hc⟩
  · simp [drawCard] at h
  · rw [List.concat_eq_append] at hc
    subst hc
    rw [drawCard_concat] at h
    simp only [Option.some.injEq, Prod.mk.injEq] at h
    obtain ⟨rfl, rfl⟩ := h
    rfl

/-- A failed `drawCard` means the deck was empty. -/
theorem drawCard_eq_none {deck : List UnoCard} (h : drawCard deck = none) : deck = [] := by
  rcases deck.eq_nil_or_concat with rfl | ⟨l, a, hc⟩
  · rfl
  · rw [List.concat_eq_append] at hc
    subst hc
    rw [drawCard_concat] at h
    cases h

/-- Updating one entry never changes the length of the list. -/
theorem length_modifyAt {α : Type} (l : List α) (i : Nat) (f : α → α) :
    (modifyAt l i f).length = l.length := by
  induction l generalizing i with
  | nil => rfl
  | cons a rest ih =>
    cases i with
    | zero => simp [modifyAt]
    | succ j => simp [modifyAt, ih]

/-- Unfolding lemma for `handsTotal`. -/
theorem handsTotal_cons (x : List UnoCard) (xs : List (List UnoCard)) :
    handsTotal (x :: xs) = x.length + handsTotal xs := by
  simp [handsTotal]

/-- Effect of an in-range `modifyAt` on the total hand size. -/
theorem handsTotal_modifyAt (l : List (List UnoCard)) (i : Nat)
    (f : List UnoCard → List UnoCard) (h : i < l.length) :
    handsTotal (modifyAt l i f) + (l.getD i []).length
      = handsTotal l + (f (l.getD i [])).length := by
  induction l generalizing i with
  | nil => simp at h
  | cons a rest ih =>
    cases i with
    | zero =>
      simp only [modifyAt, handsTotal_cons, List.getD_cons_zero]
      omega
    | succ j =>
      simp only [modifyAt, handsTotal_cons, List.getD_cons_succ]
      have := ih j (by simpa using h)
      omega

/-- A successful `findIdx?` starting at `i` yields an index below
`i + length`. -/
theorem findIdx?_some_lt {α : Type} (p : α → Bool) (l : List α) :
    ∀ (i j : Nat), List.findIdx? p l i = some j → j < i + l.length := by
  induction l with
  | nil =>
    intro i j h
    simp [List.findIdx?] at h
  | cons a rest ih =>
    intro i j h
    rw [List.findIdx?] at h
    split at h
    · simp only [Option.some.injEq] at h
      subst h
      simp
    · have := ih (i + 1) j h
      simp only [List.length_cons]
      omega

/-- Master lemma for `draw_n_cards`: a non-panicking call moves exactly `n`
cards out of the main deck / discard pile, never touches the hands, the
turn index, or the direction, and never empties a non-empty discard pile. -/
theorem drawNCards_spec : ∀ (n : Nat) (s s' : UnoGameState) (cs : List UnoCard),
    drawNCards s n = some (s', cs) →
    s'.main_deck.length + s'.discard_deck.length + cs.length
        = s.main_deck.length + s.discard_deck.length ∧
    s'.player_hands = s.player_hands ∧
    s'.current_turn = s.current_turn ∧
    s'.turn_direction = s.turn_direction ∧
    (s.discard_deck ≠ [] → s'.discard_deck ≠ []) ∧
    cs.length = n := by
  intro n
  induction n with
  | zero =>
    intro s s' cs h
    rw [drawNCards] at h
    simp only [Option.some.injEq, Prod.mk.injEq] at h
    obtain ⟨rfl, rfl⟩ := h
    simp
  | succ n ih =>
    intro s s' cs h
    rw [drawNCards] at h
    split at h
    case h_1 card main' heq =>
      split at h
      · cases h
      case h_2 s1 cards heq2 =>
        simp only [Option.some.injEq, Prod.mk.injEq] at h
        obtain ⟨rfl, rfl⟩ := h
        have hdeck := drawCard_eq_some heq
        have hlen : s.main_deck.length = main'.length + 1 := by
          rw [hdeck]; simp
        have hrec := ih _ _ _ heq2
        simp only at hrec
        refine ⟨?_, hrec.2.1, hrec.2.2.1, hrec.2.2.2.1, hrec.2.2.2.2.1, ?_⟩
        · have := hrec.1
          simp only [List.length_cons]
          omega
        · simp only [List.length_cons]
          omega
    case h_2 heq =>
      split at h
      · cases h
      case h_2 top_card rest heq2 =>
        split at h
        · cases h
        case h_2 card main' heq3 =>
          split at h
          · cases h
          case h_2 s1 cards heq4 =>
            simp only [Option.some.injEq, Prod.mk.injEq] at h
            obtain ⟨rfl, rfl⟩ := h
            have hmain : s.main_deck = [] := drawCard_eq_none heq
            have hdis : s.discard_deck = rest ++ [top_card] := drawCard_eq_some heq2
            have hmid : s.main_deck ++ rest = main' ++ [card] := drawCard_eq_some heq3
            have hrec := ih _ _ _ heq4
            simp only at hrec
            have hlen1 : s.discard_deck.length = rest.length + 1 := by rw [hdis]; simp
            have hlen2 : rest.length = main'.length + 1 := by
              have := congrArg List.length hmid
              rw [hmain] at this
              simpa using this
            refine ⟨?_, hrec.2.1, hrec.2.2.1, hrec.2.2.2.1, ?_, ?_⟩
            · have hA : s1.main_deck.length + s1.discard_deck.length + cards.length
                  = main'.length + 1 := by simpa using hrec.1
              simp only [List.length_cons]
              rw [hmain]
              simp only [List.length_nil]
              omega
            · intro _
              exact hrec.2.2.2.2.1 (by simp)
            · simp only [List.length_cons]
              omega

/-- The draw helper never hits the validation-phase access panics. -/
theorem applyDraw_ne_panicAccess (s : UnoGameState) (n : Nat) :
    applyDraw s n ≠ .panicAccess := by
  intro h
  unfold applyDraw at h
  split at h <;> simp at h

/-- A normal return of `applyDraw` is an `Ok`, conserves the card total,
keeps the player count, and keeps a non-empty discard pile non-empty. -/
theorem applyDraw_res_spec (s : UnoGameState) (n : Nat) (s' : UnoGameState)
    (e : Option UnoError) (hlen : 0 < s.player_hands.length)
    (h : applyDraw s n = .res s' e) :
    e = none ∧ totalCards s' = totalCards s ∧
    s'.player_hands.length = s.player_hands.length ∧
    (s.discard_deck ≠ [] → s'.discard_deck ≠ []) := by
  unfold applyDraw at h
  split at h
  · simp at h
  case h_2 s1 drawn heq =>
    simp only [TryNextOut.res.injEq] at h
    obtain ⟨rfl, rfl⟩ := h
    have hd := drawNCards_spec n _ s1 drawn heq
    have hhands : s1.player_hands = s.player_hands := by simpa using hd.2.1
    have hturn : s1.current_turn = (s.current_turn + 1) % s.player_hands.length := by
      simpa using hd.2.2.1
    have hdecks : s1.main_deck.length + s1.discard_deck.length + drawn.length
        = s.main_deck.length + s.discard_deck.length := by simpa using hd.1
    have hidx : s1.current_turn < s1.player_hands.length := by
      rw [hturn, hhands]
      exact Nat.mod_lt _ hlen
    refine ⟨rfl, ?_, ?_, ?_⟩
    · have hmod := handsTotal_modifyAt s1.player_hands s1.current_turn
        (fun h => h ++ drawn) hidx
      simp only [List.length_append] at hmod
      simp only [totalCards]
      have hht : handsTotal s1.player_hands = handsTotal s.player_hands := by
        rw [hhands]
      omega
    · simp only [length_modifyAt, hhands]
    · intro hne
      have := hd.2.2.2.2.1 (by simpa using hne)
      simpa using this

/-- The effect block never hits the validation-phase access panics. -/
theorem applyEffect_ne_panicAccess (s : UnoGameState) (card : UnoCard) :
    applyEffect s card ≠ .panicAccess := by
  intro h
  unfold applyEffect at h
  split at h
  · split at h
    · simp at h
    · split at h <;> simp at h
    · exact applyDraw_ne_panicAccess _ _ h
    · simp at h
  · split at h
    · split at h
      · exact applyDraw_ne_panicAccess _ _ h
      · simp at h
    · simp at h

/-- A normal return of the effect block is an `Ok`, conserves the card
total, keeps the player count, and keeps a non-empty discard pile
non-empty. -/
theorem applyEffect_res_spec (s : UnoGameState) (card : UnoCard)
    (s' : UnoGameState) (e : Option UnoError) (hlen : 0 < s.player_hands.length)
    (h : applyEffect s card = .res s' e) :
    e = none ∧ totalCards s' = totalCards s ∧
    s'.player_hands.length = s.player_hands.length ∧
    (s.discard_deck ≠ [] → s'.discard_deck ≠ []) := by
  unfold applyEffect at h
  split at h
  · split at h
    · simp only [TryNextOut.res.injEq] at h
      obtain ⟨rfl, rfl⟩ := h
      exact ⟨rfl, rfl, rfl, fun hne => hne⟩
    · split at h <;>
        (simp only [TryNextOut.res.injEq] at h
         obtain ⟨rfl, rfl⟩ := h
         exact ⟨rfl, rfl, rfl, fun hne => hne⟩)
    · exact applyDraw_res_spec _ _ _ _ hlen h
    · simp only [TryNextOut.res.injEq] at h
      obtain ⟨rfl, rfl⟩ := h
      exact ⟨rfl, rfl, rfl, fun hne => hne⟩
  · split at h
    · split at h
      · exact applyDraw_res_spec _ _ _ _ hlen h
      · simp only [TryNextOut.res.injEq] at h
        obtain ⟨rfl, rfl⟩ := h
        exact ⟨rfl, rfl, rfl, fun hne => hne⟩
    · simp at h

/-- Master lemma for `try_next`: a normal return reports an error only with
the state untouched, conserves the card total, keeps the player count, and
keeps a non-empty discard pile non-empty. -/
theorem tryNext_res_spec (s : UnoGameState) (w : Nat) (c : UnoCard)
    (s' : UnoGameState) (e : Option UnoError)
    (h : tryNext s w c = .res s' e) :
    ((∃ err, e = some err) → s' = s) ∧
    totalCards s' = totalCards s ∧
    s'.player_hands.length = s.player_hands.length ∧
    (s.discard_deck ≠ [] → s'.discard_deck ≠ []) := by
  unfold tryNext at h
  split at h
  · simp at h
  rename_i hlen0
  split at h
  · simp only [TryNextOut.res.injEq] at h
    obtain ⟨rfl, rfl⟩ := h
    exact ⟨fun _ => rfl, rfl, rfl, fun hne => hne⟩
  rename_i hw
  split at h
  · simp only [TryNextOut.res.injEq] at h
    obtain ⟨rfl, rfl⟩ := h
    exact ⟨fun _ => rfl, rfl, rfl, fun hne => hne⟩
  case h_2 card_idx hfind =>
    split at h
    · simp at h
    case h_2 top_card htop =>
      split at h
      · simp only [TryNextOut.res.injEq] at h
        obtain ⟨rfl, rfl⟩ := h
        exact ⟨fun _ => rfl, rfl, rfl, fun hne => hne⟩
      case h_2 _ hplay =>
        have hlen : 0 < s.player_hands.length := Nat.pos_of_ne_zero hlen0
        have hwlt : w < s.player_hands.length := by omega
        have hidx : card_idx < (s.player_hands.getD w []).length := by
          have := findIdx?_some_lt (fun card => decide (card = c))
            (s.player_hands.getD w []) 0 card_idx hfind
          omega
        have hmod := handsTotal_modifyAt s.player_hands w
          (fun hand => hand.eraseIdx card_idx) hwlt
        dsimp only at hmod
        have herase := List.length_eraseIdx_add_one hidx
        have hspec := applyEffect_res_spec _ c s' e
          (by
            show 0 < (modifyAt s.player_hands w fun hand => hand.eraseIdx card_idx).length
            rw [length_modifyAt]
            exact hlen) h
        refine ⟨?_, ?_, ?_, ?_⟩
        · intro ⟨err, herr⟩
          rw [hspec.1] at herr
          cases herr
        · rw [hspec.2.1]
          show s.main_deck.length + (s.discard_deck ++ [c]).length
              + handsTotal (modifyAt s.player_hands w fun hand => hand.eraseIdx card_idx)
              = totalCards s
          simp only [totalCards, List.length_append, List.length_cons, List.length_nil]
          omega
        · rw [hspec.2.2.1]
          show (modifyAt s.player_hands w fun hand => hand.eraseIdx card_idx).length
              = s.player_hands.length
          exact length_modifyAt _ _ _
        · intro _
          refine hspec.2.2.2 ?_
          show s.discard_deck ++ [c] ≠ []
          simp

/-- If `try_next` hits one of the two validation-phase access panics, the
hand list or the discard pile was empty. -/
theorem tryNext_panicAccess_cases (s : UnoGameState) (w : Nat) (c : UnoCard)
    (h : tryNext s w c = .panicAccess) :
    s.player_hands = [] ∨ s.discard_deck = [] := by
  unfold tryNext at h
  split at h
  · rename_i hzero
    exact Or.inl (List.length_eq_zero.mp hzero)
  split at h
  · simp at h
  split at h
  · simp at h
  split at h
  · rename_i htop
    exact Or.inr (List.getLast?_eq_none_iff.mp htop)
  split at h
  · simp at h
  · exact absurd h (applyEffect_ne_panicAccess _ _)

/-- C3: whenever `try_next` returns an error (`InvalidPlayerNumber`,
`Cheating`, or `CardNotPlayable`), the returned state — main deck, discard
pile, every hand, `current_turn`, and `turn_direction` — is exactly the
state before the call: all three validations happen before any mutation. -/
theorem tryNext_error_leaves_state_unchanged (s : UnoGameState) (w : Nat)
    (c : UnoCard) (s' : UnoGameState) (err : UnoError)
    (h : tryNext s w c = .res s' (some err)) : s' = s :=
  (tryNext_res_spec s w c s' (some err) h).1 ⟨err, rfl⟩

/-- A 1-player state used to exercise the `InvalidPlayerNumber` path. -/
def stateOnePlayer : UnoGameState :=
  { main_deck := [], discard_deck := [.Card .Red .Two],
    player_hands := [[.Card .Red .Five]],
    turn_direction := .Clockwise, current_turn := 0 }

/-- Witness for C3: calling `try_next` with player number 5 on a 1-player
game errors with `InvalidPlayerNumber` and hands back the unchanged state. -/
theorem tryNext_error_leaves_state_unchanged_witness : stateOnePlayer = stateOnePlayer :=
  tryNext_error_leaves_state_unchanged stateOnePlayer 5 (.Card .Red .Five)
    stateOnePlayer .InvalidPlayerNumber (by decide)

/-- C4: starting from a state holding 108 cards in total, any normal return
of `try_next` (`Ok` or `Err`) again holds 108 cards in total, and any
non-panicking `draw_n_cards` holds 108 cards once the cards it returns (in
transit back to a hand) are counted: cards only move between containers. -/
theorem card_count_conserved (s : UnoGameState) (h108 : totalCards s = 108) :
    (∀ (w : Nat) (c : UnoCard) (s' : UnoGameState) (e : Option UnoError),
      tryNext s w c = .res s' e → totalCards s' = 108) ∧
    (∀ (n : Nat) (s' : UnoGameState) (cs : List UnoCard),
      drawNCards s n = some (s', cs) → totalCards s' + cs.length = 108) := by
  constructor
  · intro w c s' e h
    rw [← h108]
    exact (tryNext_res_spec s w c s' e h).2.1
  · intro n s' cs h
    have hd := drawNCards_spec n s s' cs h
    have hh : handsTotal s'.player_hands = handsTotal s.player_hands := by
      rw [hd.2.1]
    simp only [totalCards] at h108 ⊢
    have := hd.1
    omega

/-- A 108-card state: 106 cards in the main deck, one on the discard pile,
one in the single player's hand. -/
def state108 : UnoGameState :=
  { main_deck := List.replicate 106 (.Card .Red .One),
    discard_deck := [.Card .Red .Two],
    player_hands := [[.Card .Red .Five]],
    turn_direction := .Clockwise, current_turn := 0 }

/-- Witness for C4: playing Red 5 on Red 2 in `state108` and drawing one
card from `state108` both conserve the 108-card total. -/
theorem card_count_conserved_witness :
    totalCards { main_deck := List.replicate 106 (.Card .Red .One),
                 discard_deck := [.Card .Red .Two, .Card .Red .Five],
                 player_hands := [[]],
                 turn_direction := .Clockwise, current_turn := 0 } = 108 ∧
    totalCards { main_deck := List.replicate 105 (.Card .Red .One),
                 discard_deck := [.Card .Red .Two],
                 player_hands := [[.Card .Red .Five]],
                 turn_direction := .Clockwise, current_turn := 0 }
      + [UnoCard.Card .Red .One].length = 108 :=
  ⟨(card_count_conserved state108 (by decide)).1 0 (.Card .Red .Five) _ none (by decide),
   (card_count_conserved state108 (by decide)).2 1 _ [.Card .Red .One] (by decide)⟩

/-- C10: with a non-empty discard pile and a non-empty hand list, the two
validation-phase container accesses of `try_next` (the
`player_hands.len() - 1` subtraction and the top-of-discard index) cannot
panic, and every state a normal return produces — `Ok` or `Err` — again has
a non-empty discard pile and a non-empty hand list, so the precondition is
self-preserving. -/
theorem tryNext_accesses_safe (s : UnoGameState) (w : Nat) (c : UnoCard)
    (hd : s.discard_deck ≠ []) (hp : s.player_hands ≠ []) :
    tryNext s w c ≠ .panicAccess ∧
    ∀ (s' : UnoGameState) (e : Option UnoError),
      tryNext s w c = .res s' e → s'.discard_deck ≠ [] ∧ s'.player_hands ≠ [] := by
  constructor
  · intro h
    rcases tryNext_panicAccess_cases s w c h with h1 | h1
    · exact hp h1
    · exact hd h1
  · intro s' e h
    have hspec := tryNext_res_spec s w c s' e h
    refine ⟨hspec.2.2.2 hd, ?_⟩
    intro hnil
    have hlen := hspec.2.2.1
    rw [hnil] at hlen
    exact hp (List.length_eq_zero.mp hlen.symm)

/-- A 2-player state used to witness the access-safety theorem. -/
def stateSafe : UnoGameState :=
  { main_deck := [], discard_deck := [.Card .Red .Two],
    player_hands := [[.Card .Red .Six], [.Card .Blue .One]],
    turn_direction := .Clockwise, current_turn := 0 }

/-- Witness for C10: in `stateSafe` the access panics cannot fire, and the
state after playing Red 6 on Red 2 still has a non-empty discard pile and a
non-empty hand list. -/
theorem tryNext_accesses_safe_witness :
    tryNext stateSafe 0 (.Card .Red .Six) ≠ .panicAccess ∧
    (({ main_deck := [], discard_deck := [.Card .Red .Two, .Card .Red .Six],
        player_hands := [[], [.Card .Blue .One]],
        turn_direction := .Clockwise, current_turn := 0 } : UnoGameState).discard_deck ≠ [] ∧
     ({ main_deck := [], discard_deck := [.Card .Red .Two, .Card .Red .Six],
        player_hands := [[], [.Card .Blue .One]],
        turn_direction := .Clockwise, current_turn := 0 } : UnoGameState).player_hands ≠ []) :=
  ⟨(tryNext_accesses_safe stateSafe 0 (.Card .Red .Six) (by decide) (by decide)).1,
   (tryNext_accesses_safe stateSafe 0 (.Card .Red .Six) (by decide) (by decide)).2
     _ none (by decide)⟩

/-- Direction flip, as the claim words it. -/
def TurnDirection.flip : TurnDirection → TurnDirection
  | .Clockwise => .CounterClockwise
  | .CounterClockwise => .Clockwise

/-- The turn index the claim prescribes after a Reverse: stepping backward
by one (wrapping 0 to player count minus one) when flipping Clockwise to
CounterClockwise, stepping forward by one modulo the player count when
flipping CounterClockwise to Clockwise. -/
def reverseTurnSpec (s : UnoGameState) : Nat :=
  match s.turn_direction with
  | .Clockwise =>
    if s.current_turn = 0 then s.player_hands.length - 1 else s.current_turn - 1
  | .CounterClockwise => (s.current_turn + 1) % s.player_hands.length

/-- C7: every accepted play of a Reverse flips `turn_direction` and moves
`current_turn` as the claim prescribes (backward one step with wraparound
when flipping Clockwise to CounterClockwise, forward one step otherwise). -/
theorem reverse_flips_direction_and_steps (s : UnoGameState) (w : Nat)
    (color : UnoColor) (s' : UnoGameState)
    (h : tryNext s w (.Card color .Reverse) = .res s' none) :
    s'.turn_direction = s.turn_direction.flip ∧
    s'.current_turn = reverseTurnSpec s := by
  unfold tryNext at h
  split at h
  · simp at h
  split at h
  · simp at h
  split at h
  · simp at h
  case h_2 card_idx hfind =>
    split at h
    · simp at h
    case h_2 top_card htop =>
      split at h
      · simp at h
      case h_2 _ hplay =>
        unfold applyEffect at h
        simp only at h
        split at h
        case h_1 hdir =>
          simp only [TryNextOut.res.injEq] at h
          obtain ⟨rfl, -⟩ := h
          constructor
          · show TurnDirection.CounterClockwise = s.turn_direction.flip
            rw [hdir]
            rfl
          · show (if s.current_turn = 0
                then (modifyAt s.player_hands w fun hand => hand.eraseIdx card_idx).length - 1
                else s.current_turn - 1)
              = reverseTurnSpec s
            rw [length_modifyAt]
            unfold reverseTurnSpec
            rw [hdir]
        case h_2 hdir =>
          simp only [TryNextOut.res.injEq] at h
          obtain ⟨rfl, -⟩ := h
          constructor
          · show TurnDirection.Clockwise = s.turn_direction.flip
            rw [hdir]
            rfl
          · show (s.current_turn + 1)
                % (modifyAt s.player_hands w fun hand => hand.eraseIdx card_idx).length
              = reverseTurnSpec s
            rw [length_modifyAt]
            unfold reverseTurnSpec
            rw [hdir]

/-- A 4-player Clockwise state with `current_turn = 0` whose current player
holds a Reverse. -/
def stateReversePlay : UnoGameState :=
  { main_deck := [], discard_deck := [.Card .Red .Five],
    player_hands := [[.Card .Red .Reverse], [.Card .Blue .One],
      [.Card .Green .One], [.Card .Yellow .One]],
    turn_direction := .Clockwise, current_turn := 0 }

/-- Witness for C7, instantiating the claim's own example: in a 4-player
Clockwise game with `current_turn = 0`, the accepted Reverse yields
CounterClockwise and `current_turn = 3`. -/
theorem reverse_flips_direction_and_steps_witness :
    ({ main_deck := [], discard_deck := [.Card .Red .Five, .Card .Red .Reverse],
       player_hands := [[], [.Card .Blue .One], [.Card .Green .One], [.Card .Yellow .One]],
       turn_direction := .CounterClockwise,
       current_turn := 3 } : UnoGameState).turn_direction
        = stateReversePlay.turn_direction.flip ∧
    ({ main_deck := [], discard_deck := [.Card .Red .Five, .Card .Red .Reverse],
       player_hands := [[], [.Card .Blue .One], [.Card .Green .One], [.Card .Yellow .One]],
       turn_direction := .CounterClockwise,
       current_turn := 3 } : UnoGameState).current_turn = reverseTurnSpec stateReversePlay :=
  reverse_flips_direction_and_steps stateReversePlay 0 .Red _ (by decide)

/-- C9: with the main deck empty and a discard pile `l ++ [c, t]` (top `t`,
at least two cards), `draw_n_cards(1)` recycles: the discard pile is left
holding exactly the prior top card `t`, the remaining discard cards move to
the main deck minus the one card drawn (the recycled top `c`), and that one
card is returned. -/
theorem draw_one_card_recycles_discard (s : UnoGameState) (l : List UnoCard)
    (c t : UnoCard) (hmain : s.main_deck = [])
    (hdis : s.discard_deck = l ++ [c, t]) :
    drawNCards s 1 = some ({ s with main_deck := l, discard_deck := [t] }, [c]) := by
  have hsplit : s.discard_deck = (l ++ [c]) ++ [t] := by
    rw [hdis]
    simp
  have e1 : drawCard s.main_deck = none := by rw [hmain]; rfl
  have e2 : drawCard s.discard_deck = some (t, l ++ [c]) := by
    rw [hsplit, drawCard_concat]
  have e3 : drawCard (s.main_deck ++ (l ++ [c])) = some (c, l) := by
    rw [hmain]
    simpa using drawCard_concat l c
  rw [drawNCards, e1, e2]
  dsimp only
  rw [e3]
  dsimp only
  rw [drawNCards]

/-- A state with an empty main deck and a two-card discard pile. -/
def stateRecycle : UnoGameState :=
  { main_deck := [], discard_deck := [.Card .Red .One, .Card .Blue .Two],
    player_hands := [[]], turn_direction := .Clockwise, current_turn := 0 }

/-- Witness for C9: drawing one card from `stateRecycle` keeps its top card
Blue 2 as the sole discard card and returns the recycled Red 1. -/
theorem draw_one_card_recycles_discard_witness :
    drawNCards stateRecycle 1 =
      some ({ main_deck := [], discard_deck := [.Card .Blue .Two],
              player_hands := [[]], turn_direction := .Clockwise,
              current_turn := 0 }, [.Card .Red .One]) :=
  draw_one_card_recycles_discard stateRecycle [] (.Card .Red .One) (.Card .Blue .Two)
    rfl rfl

/-- If the deal loop has more iterations to run than the deck has cards, it
fails with `NoCardsLeft`. -/
theorem dealGo_error_of_lt (fuel : Nat) :
    ∀ (deck : List UnoCard) (hands : List (List UnoCard)) (players i : Nat),
      deck.length < fuel → dealGo deck hands players i fuel = .error .NoCardsLeft := by
  induction fuel with
  | zero =>
    intro deck hands players i h
    omega
  | succ f ih =>
    intro deck hands players i h
    rcases deck.eq_nil_or_concat with rfl | ⟨l, a, hc⟩
    · rfl
    · rw [List.concat_eq_append] at hc
      subst hc
      rw [dealGo, drawCard_concat]
      dsimp only
      apply ih
      have : (l ++ [a]).length = l.length + 1 := by simp
      omega

/-- If the deck has at least as many cards as the deal loop has iterations,
the loop succeeds and consumes exactly `fuel` cards from the deck. -/
theorem dealGo_ok_of_le (fuel : Nat) :
    ∀ (deck : List UnoCard) (hands : List (List UnoCard)) (players i : Nat),
      fuel ≤ deck.length →
      ∃ deck' hands', dealGo deck hands players i fuel = .ok (deck', hands') ∧
        deck'.length = deck.length - fuel := by
  induction fuel with
  | zero =>
    intro deck hands players i _
    exact ⟨deck, hands, rfl, by omega⟩
  | succ f ih =>
    intro deck hands players i h
    rcases deck.eq_nil_or_concat with rfl | ⟨l, a, hc⟩
    · simp at h
    · rw [List.concat_eq_append] at hc
      subst hc
      have hlen : (l ++ [a]).length = l.length + 1 := by simp
      obtain ⟨deck', hands', hok, hlen'⟩ :=
        ih l (modifyAt hands (i % players) (fun h => h ++ [a])) players (i + 1)
          (by omega)
      refine ⟨deck', hands', ?_, by omega⟩
      rw [dealGo, drawCard_concat]
      dsimp only
      exact hok

/-- C1: `GameState::new` NEVER succeeds for 1–4 players.  Because
`PLAYER_STARTING_HAND_SIZE` is 108 (the full deck size, not the intended 7),
dealing tries to draw `108 * players` cards from a 108-card deck: with 2–4
players the deal itself exhausts the deck, and with 1 player the deal
consumes all 108 cards and the subsequent draw for the discard pile fails —
either way `NoCardsLeft`, contradicting the claim (and the source's own doc
comment "Should never happen since we're making a brand new deck"). -/
theorem game_state_new_fails_noCardsLeft (deck : List UnoCard)
    (hlen : deck.length = 108) (players : Nat) (h1 : 1 ≤ players)
    (h4 : players ≤ 4) :
    UnoGameState.newFrom deck players = .error .NoCardsLeft := by
  unfold UnoGameState.newFrom deal
  by_cases hp : players = 1
  · subst hp
    obtain ⟨deck', hands', hok, hlen'⟩ :=
      dealGo_ok_of_le (PLAYER_STARTING_HAND_SIZE * 1) deck (List.replicate 1 []) 1 0
        (by simp [PLAYER_STARTING_HAND_SIZE]; omega)
    rw [hok]
    have hnil : deck' = [] := by
      apply List.length_eq_zero.mp
      rw [hlen']
      simp [PLAYER_STARTING_HAND_SIZE]
      omega
    subst hnil
    rfl
  · rw [dealGo_error_of_lt]
    have : (108 : Nat) ≤ 54 * players := by omega
    simp [PLAYER_STARTING_HAND_SIZE]
    omega

/-- Witness for C1: on the actual freshly constructed (108-card) deck with
the maximum 4 players, construction fails with `NoCardsLeft`. -/
theorem game_state_new_fails_noCardsLeft_witness :
    UnoGameState.newFrom UnoDeck.newCards 4 = .error .NoCardsLeft :=
  game_state_new_fails_noCardsLeft UnoDeck.newCards (by decide) 4 (by decide) (by decide)
